import Mathlib

/-!
# Verification of the redis-like server (RESP codec, state machine, RDB reader)

Shallow embedding of the Rust sources in `src/`:

* `src/resp_value.rs` — the RESP wire codec (`RespValue::serialize`,
  `RespValue::deserialize`, `find_terminator`);
* `src/message.rs`    — the typed command layer (`Message`, `is_write_command`,
  `Message::serialize`, `Message::deserialize`);
* `src/store.rs`      — the key/value store with expiry;
* `src/state.rs`      — the state core (`State::handle_incoming`,
  `State::next_outgoing`, `EMPTY_RDB_FILE`, `REPLICATION_ID`);
* `src/rdb.rs`        — the snapshot reader (`parse_string`,
  `parse_length_encoding`).

Modelling conventions:

* A Rust byte slice / `Vec<u8>` is a `List Nat`; byte values are reduced
  `% 256` exactly where the Rust code performs `u8` arithmetic.
* A Rust `String` / `&str` is the `List Nat` of its UTF-8 bytes; the
  `std::str::from_utf8` validity check is the executable `utf8Valid`.
* `Instant` (monotonic clock) and `SystemTime`-since-epoch (wall clock) are
  `Nat` millisecond counts passed to the state functions as explicit `now` /
  `wallNow` arguments; `Duration` is a `Nat` count of milliseconds.
* Fallible Rust code returns `Except`/`Option`; a Rust panic (failed
  `assert!`, out-of-bounds slice indexing, `todo!()`, `unreachable!()`,
  out-of-range `Vec` indexing) is the explicit `.panic` outcome.
* The RESP parser's recursion (arrays of values) is made total by an explicit
  fuel argument with a distinct `.outOfFuel` outcome; all theorems either
  quantify over the fuel or use a concretely sufficient fuel.
* `anyhow` error message strings are not modelled; an error is `.err` / the
  `Except.error ()` value.
* Rust `HashMap`s are association lists (insertion order); the store's and
  the info-section maps' iteration order is an abstraction of the HashMap's
  unspecified order.
* `f64` (the RESP `Double` case) is kept as its source text: Rust parses the
  text into an IEEE double and re-renders it, which a shallow embedding does
  not model; the spec itself documents `Double` re-serialization as an
  exception, and no claim is settled through the `Double` payload.
-/

namespace Redis

/-- ASCII byte list of a string literal (all constants used are ASCII). -/
def strBytes (s : String) : List Nat :=
  s.data.map Char.toNat

/-- Byte of a character literal. -/
def byteOf (c : Char) : Nat := c.toNat

/-- `u8::is_ascii_digit`. -/
def isDigitByte (c : Nat) : Bool :=
  48 ≤ c && c ≤ 57

/-- Bytewise `str::to_ascii_uppercase` (exact for UTF-8: non-ASCII bytes are
`≥ 0x80` and unchanged). -/
def asciiUpper (s : List Nat) : List Nat :=
  s.map fun c => if 97 ≤ c && c ≤ 122 then c - 32 else c

/-- Bytewise `str::to_ascii_lowercase`. -/
def asciiLower (s : List Nat) : List Nat :=
  s.map fun c => if 65 ≤ c && c ≤ 90 then c + 32 else c

/-- Digits of `n` in base 10, most significant first (empty for 0), computed
with structural fuel so the kernel can evaluate it; helper for `Nat`'s
`to_string`. -/
def natDigitsFuel : Nat → Nat → List Nat
  | 0, _ => []
  | fuel + 1, n => if n = 0 then [] else natDigitsFuel fuel (n / 10) ++ [n % 10 + 48]

/-- `u64::to_string` / `usize::to_string` as UTF-8 bytes. -/
def natToDecimal (n : Nat) : List Nat :=
  if n = 0 then [48] else natDigitsFuel n n

/-- `i64::to_string` / `isize::to_string` as UTF-8 bytes. -/
def intToDecimal (i : Int) : List Nat :=
  if i < 0 then 45 :: natToDecimal i.natAbs else natToDecimal i.toNat

/-- Value of an all-digit byte string (none if empty or non-digit). -/
def digitsValue (s : List Nat) : Option Nat :=
  if s = [] then none
  else if s.all isDigitByte then
    some (s.foldl (fun acc c => acc * 10 + (c - 48)) 0)
  else none

/-- `str::parse::<u64>` (also `usize` on 64-bit): optional leading `+`,
at least one digit, value below `2^64`. -/
def parseU64 (s : List Nat) : Option Nat :=
  let t := match s with
    | 43 :: rest => rest
    | _ => s
  match digitsValue t with
  | some v => if v < 2 ^ 64 then some v else none
  | none => none

/-- `str::parse::<i64>` (also `isize` on 64-bit): optional sign, at least one
digit, value within the `i64` range. -/
def parseI64 (s : List Nat) : Option Int :=
  match s with
  | 45 :: rest =>
    match digitsValue rest with
    | some v => if v ≤ 2 ^ 63 then some (-(v : Int)) else none
    | none => none
  | 43 :: rest =>
    match digitsValue rest with
    | some v => if v < 2 ^ 63 then some (v : Int) else none
    | none => none
  | _ =>
    match digitsValue s with
    | some v => if v < 2 ^ 63 then some (v : Int) else none
    | none => none

/-- `str::parse::<u16>`: optional leading `+`, value below `2^16`. -/
def parseU16 (s : List Nat) : Option Nat :=
  let t := match s with
    | 43 :: rest => rest
    | _ => s
  match digitsValue t with
  | some v => if v < 2 ^ 16 then some v else none
  | none => none

/-- UTF-8 validity of a byte list: the check `std::str::from_utf8` performs. -/
def utf8Valid : List Nat → Bool
  | [] => true
  | c :: rest =>
    if c < 0x80 then utf8Valid rest
    else if 0xC2 ≤ c && c ≤ 0xDF then
      match rest with
      | c2 :: rest2 => 0x80 ≤ c2 && c2 ≤ 0xBF && utf8Valid rest2
      | [] => false
    else if c = 0xE0 then
      match rest with
      | c2 :: c3 :: rest3 =>
        0xA0 ≤ c2 && c2 ≤ 0xBF && (0x80 ≤ c3 && c3 ≤ 0xBF) && utf8Valid rest3
      | _ => false
    else if (0xE1 ≤ c && c ≤ 0xEC) || c = 0xEE || c = 0xEF then
      match rest with
      | c2 :: c3 :: rest3 =>
        0x80 ≤ c2 && c2 ≤ 0xBF && (0x80 ≤ c3 && c3 ≤ 0xBF) && utf8Valid rest3
      | _ => false
    else if c = 0xED then
      match rest with
      | c2 :: c3 :: rest3 =>
        0x80 ≤ c2 && c2 ≤ 0x9F && (0x80 ≤ c3 && c3 ≤ 0xBF) && utf8Valid rest3
      | _ => false
    else if c = 0xF0 then
      match rest with
      | c2 :: c3 :: c4 :: rest4 =>
        0x90 ≤ c2 && c2 ≤ 0xBF && (0x80 ≤ c3 && c3 ≤ 0xBF) &&
          (0x80 ≤ c4 && c4 ≤ 0xBF) && utf8Valid rest4
      | _ => false
    else if 0xF1 ≤ c && c ≤ 0xF3 then
      match rest with
      | c2 :: c3 :: c4 :: rest4 =>
        0x80 ≤ c2 && c2 ≤ 0xBF && (0x80 ≤ c3 && c3 ≤ 0xBF) &&
          (0x80 ≤ c4 && c4 ≤ 0xBF) && utf8Valid rest4
      | _ => false
    else if c = 0xF4 then
      match rest with
      | c2 :: c3 :: c4 :: rest4 =>
        0x80 ≤ c2 && c2 ≤ 0x8F && (0x80 ≤ c3 && c3 ≤ 0xBF) &&
          (0x80 ≤ c4 && c4 ≤ 0xBF) && utf8Valid rest4
      | _ => false
    else false

/-- The sub-slice `data[a..b]` as a value (the Rust slice panics when
out of range; callers that can go out of range use `listSlice`). -/
def extractList (data : List Nat) (a b : Nat) : List Nat :=
  (data.drop a).take (b - a)

/-- The Rust slice expression `&data[a..b]`: `none` models the
out-of-bounds panic. -/
def listSlice (data : List Nat) (a b : Nat) : Option (List Nat) :=
  if a ≤ b ∧ b ≤ data.length then some (extractList data a b) else none

/-- Strip one leading ASCII sign byte (`+` or `-`), helper for the numeric
grammars of `FromStr`. -/
def stripSign : List Nat → List Nat
  | 43 :: rest => rest
  | 45 :: rest => rest
  | s => s

/-- Longest all-digit front of a byte list and the rest. -/
def spanDigits (s : List Nat) : List Nat × List Nat :=
  (s.takeWhile isDigitByte, s.dropWhile isDigitByte)

/-- Exponent tail of the `f64` grammar: `[sign] digits`, nothing after. -/
def f64ExpOk (r : List Nat) : Bool :=
  match spanDigits (stripSign r) with
  | (d, []) => d ≠ []
  | _ => false

/-- Acceptance of `str::parse::<f64>` (`f64::from_str` grammar):
case-insensitive `inf` / `infinity` / `nan` with optional sign, or
`[sign] (digits [. [digits]] | . digits) [e [sign] digits]`.  The numeric
value is not modelled (IEEE float); only acceptance is. -/
def parseF64Accepts (s : List Nat) : Bool :=
  let t := asciiLower s
  let u := stripSign t
  if u = strBytes "inf" || u = strBytes "infinity" || u = strBytes "nan" then true
  else
    let (d1, r1) := spanDigits u
    match r1 with
    | [] => d1 ≠ []
    | 46 :: r2 =>
      let (d2, r3) := spanDigits r2
      if d1 = [] && d2 = [] then false
      else
        match r3 with
        | [] => true
        | 101 :: r4 => f64ExpOk r4
        | _ => false
    | 101 :: r2 => d1 ≠ [] && f64ExpOk r2
    | _ => false

/-- The RESP big-number character check of `RespValue::deserialize`'s `(`
branch: position 0 may be a digit or a sign, later positions must be digits
(`all` over the empty string is `true`, exactly as in the source). -/
def bigNumberOk : List Nat → Bool
  | [] => true
  | c :: rest => (isDigitByte c || c = 45 || c = 43) && rest.all isDigitByte

/-- `find_terminator` (src/resp_value.rs): index of the first `\r\n`.
The Rust loop runs `i` over `0 .. data.len()-1` comparing `&data[i..i+2]`
with `b"\r\n"`; this recursion computes the same first index. -/
def findTerminator : List Nat → Option Nat
  | [] => none
  | a :: rest =>
    match rest with
    | [] => none
    | b :: _ => if a = 13 ∧ b = 10 then some 0 else (findTerminator rest).map (· + 1)

/-- The field `data[1..ti]` passed through `std::str::from_utf8`
(`none` = `Err(Utf8Error)`).  At every call site the tag byte at position 0
is not `\r`, so `ti ≥ 1` and the Rust slice `&data[1..ti]` is in bounds. -/
def utf8Field (data : List Nat) (ti : Nat) : Option (List Nat) :=
  let f := extractList data 1 ti
  if utf8Valid f then some f else none

/-- `RespValue` (src/resp_value.rs).  String payloads are UTF-8 byte lists;
`double` keeps the accepted source text (see the header note on `f64`). -/
inductive RespValue : Type where
  | ownedSimpleString (s : List Nat)
  | simpleString (s : List Nat)
  | simpleError (s : List Nat)
  | integer (n : Int)
  | ownedBulkString (s : List Nat)
  | bulkString (s : List Nat)
  | nullBulkString
  | rawBytes (b : List Nat)
  | array (elements : List RespValue)
  | nullArray
  | null
  | boolean (b : Bool)
  | double (text : List Nat)
  | bigNumber (digits : List Nat)
  | bulkError
  | verbatimString
  | map
  | set
  | push

/-- Outcome of the fallible, panicking Rust parse functions.
`ok v rest` is `Ok((v, remainder))`; `err` any `anyhow` error; `panic` a Rust
panic (failed `assert!`, slice out of bounds, `todo!()`); `outOfFuel` marks
exhaustion of the artificial recursion fuel (no Rust counterpart). -/
inductive DRes (α : Type) : Type where
  | ok (v : α) (rest : List Nat)
  | err
  | panic
  | outOfFuel
deriving DecidableEq, Repr

mutual

/-- `RespValue::serialize` (src/resp_value.rs), flattened per case: each case
is the tag byte, then the case body, then `\r\n` exactly when the source's
`has_final_terminator` table says so (`RawBytes` and `Array` omit it; an
`Array`'s children each emit their own).  `none` models the `todo!()` panics
of the five unimplemented cases. -/
def serializeResp : RespValue → Option (List Nat)
  | .ownedSimpleString s => some (43 :: s ++ [13, 10])
  | .simpleString s => some (43 :: s ++ [13, 10])
  | .simpleError s => some (45 :: s ++ [13, 10])
  | .integer n => some (58 :: intToDecimal n ++ [13, 10])
  | .ownedBulkString s => some (36 :: natToDecimal s.length ++ [13, 10] ++ s ++ [13, 10])
  | .bulkString s => some (36 :: natToDecimal s.length ++ [13, 10] ++ s ++ [13, 10])
  | .nullBulkString => some (36 :: [45, 49] ++ [13, 10])
  | .rawBytes b => some (36 :: natToDecimal b.length ++ [13, 10] ++ b)
  | .array es => (serializeList es).map fun body => 42 :: natToDecimal es.length ++ [13, 10] ++ body
  | .nullArray => some (42 :: [45, 49] ++ [13, 10])
  | .null => some (95 :: [13, 10])
  | .boolean b => some (35 :: (if b then 116 else 102) :: [13, 10])
  | .double text => some (44 :: text ++ [13, 10])
  | .bigNumber digits => some (40 :: digits ++ [13, 10])
  | .bulkError => none
  | .verbatimString => none
  | .map => none
  | .set => none
  | .push => none

/-- Serialization of an `Array`'s children in order (the `for` loop in the
`Array` case), propagating a child's `todo!()` panic. -/
def serializeList : List RespValue → Option (List Nat)
  | [] => some []
  | v :: vs =>
    match serializeResp v, serializeList vs with
    | some a, some b => some (a ++ b)
    | _, _ => none

end

mutual

/-- `RespValue::deserialize` (src/resp_value.rs) with explicit recursion fuel.
Branches on the tag byte `data[0]` exactly as the source `match`; each branch
scans to the first `\r\n` with `find_terminator`, reads the field
`data[1..ti]` through `from_utf8`, and produces the value and the remainder.
The `$` branch performs the source's two-byte lookahead
`&data[ti+2+len .. ti+2+len+2] != b"\r\n"` via `listSlice`, whose
out-of-bounds case is the source's slice panic.  The empty-input `assert!`
is `.panic`. -/
def deserializeF : Nat → List Nat → DRes RespValue
  | 0, _ => .outOfFuel
  | fuel + 1, data =>
    match data with
    | [] => .panic
    | t :: _ =>
      if t = 43 then
        match findTerminator data with
        | some ti =>
          match utf8Field data ti with
          | some s => .ok (.simpleString s) (data.drop (ti + 2))
          | none => .err
        | none => .err
      else if t = 45 then
        match findTerminator data with
        | some ti =>
          match utf8Field data ti with
          | some s => .ok (.simpleError s) (data.drop (ti + 2))
          | none => .err
        | none => .err
      else if t = 58 then
        match findTerminator data with
        | some ti =>
          match utf8Field data ti with
          | some s =>
            match parseI64 s with
            | some n => .ok (.integer n) (data.drop (ti + 2))
            | none => .err
          | none => .err
        | none => .err
      else if t = 36 then
        match findTerminator data with
        | some ti =>
          match utf8Field data ti with
          | some digits =>
            match parseU64 digits with
            | some len =>
              match listSlice data (ti + 2 + len) (ti + 2 + len + 2) with
              | some look =>
                if look ≠ [13, 10] then
                  .ok (.rawBytes (extractList data (ti + 2) (ti + 2 + len)))
                    (data.drop (ti + 2 + len))
                else
                  if utf8Valid (extractList data (ti + 2) (ti + 2 + len)) then
                    .ok (.bulkString (extractList data (ti + 2) (ti + 2 + len)))
                      (data.drop (ti + 2 + len + 2))
                  else .err
              | none => .panic
            | none =>
              if digits = [45, 49] then .ok .nullBulkString (data.drop (ti + 2)) else .err
          | none => .err
        | none => .err
      else if t = 42 then
        match findTerminator data with
        | some ti =>
          match utf8Field data ti with
          | some digits =>
            match parseU64 digits with
            | some n =>
              match deserializeMany fuel n (data.drop (ti + 2)) with
              | .ok elems rest => .ok (.array elems) rest
              | .err => .err
              | .panic => .panic
              | .outOfFuel => .outOfFuel
            | none =>
              if digits = [45, 49] then .ok .nullArray (data.drop (ti + 2)) else .err
          | none => .err
        | none => .err
      else if t = 95 then
        match findTerminator data with
        | some ti => if ti = 1 then .ok .null (data.drop 3) else .err
        | none => .err
      else if t = 35 then
        match findTerminator data with
        | some ti =>
          if ti = 2 then
            match data.get? 1 with
            | some 116 => .ok (.boolean true) (data.drop 4)
            | some 102 => .ok (.boolean false) (data.drop 4)
            | _ => .err
          else .err
        | none => .err
      else if t = 44 then
        match findTerminator data with
        | some ti =>
          match utf8Field data ti with
          | some s =>
            if parseF64Accepts s then .ok (.double s) (data.drop (ti + 2)) else .err
          | none => .err
        | none => .err
      else if t = 40 then
        match findTerminator data with
        | some ti =>
          match utf8Field data ti with
          | some digits =>
            if bigNumberOk digits then .ok (.bigNumber digits) (data.drop (ti + 2)) else .err
          | none => .err
        | none => .err
      else if t = 33 ∨ t = 61 ∨ t = 37 ∨ t = 126 ∨ t = 62 then
        .panic
      else .err

/-- The `Array` branch's element loop (`for _ in 0..num_elements`),
propagating errors and panics through `?`. -/
def deserializeMany : Nat → Nat → List Nat → DRes (List RespValue)
  | 0, _, _ => .outOfFuel
  | _ + 1, 0, data => .ok [] data
  | fuel + 1, n + 1, data =>
    match deserializeF fuel data with
    | .ok v rest =>
      match deserializeMany fuel n rest with
      | .ok vs rest2 => .ok (v :: vs) rest2
      | .err => .err
      | .panic => .panic
      | .outOfFuel => .outOfFuel
    | .err => .err
    | .panic => .panic
    | .outOfFuel => .outOfFuel

end

mutual

/-- Canonical-numeral check for a wire value, mirroring `deserializeF` case
for case.  `canonRespF fuel data = some rest` says: `data` parses (same path
as `deserializeF`), its remainder is `rest`, every integer and length literal
in the consumed part is written canonically (the text `to_string` would
produce: no leading `+`, no leading zeros, no `-0`), and no `Double` occurs
(the spec documents `Double` re-serialization as non-identical).  This is the
side condition of the round-trip law. -/
def canonRespF : Nat → List Nat → Option (List Nat)
  | 0, _ => none
  | fuel + 1, data =>
    match data with
    | [] => none
    | t :: _ =>
      if t = 43 then
        match findTerminator data with
        | some ti =>
          match utf8Field data ti with
          | some _ => some (data.drop (ti + 2))
          | none => none
        | none => none
      else if t = 45 then
        match findTerminator data with
        | some ti =>
          match utf8Field data ti with
          | some _ => some (data.drop (ti + 2))
          | none => none
        | none => none
      else if t = 58 then
        match findTerminator data with
        | some ti =>
          match utf8Field data ti with
          | some s =>
            match parseI64 s with
            | some n => if s = intToDecimal n then some (data.drop (ti + 2)) else none
            | none => none
          | none => none
        | none => none
      else if t = 36 then
        match findTerminator data with
        | some ti =>
          match utf8Field data ti with
          | some digits =>
            match parseU64 digits with
            | some len =>
              if digits = natToDecimal len then
                match listSlice data (ti + 2 + len) (ti + 2 + len + 2) with
                | some look =>
                  if look ≠ [13, 10] then some (data.drop (ti + 2 + len))
                  else
                    if utf8Valid (extractList data (ti + 2) (ti + 2 + len)) then
                      some (data.drop (ti + 2 + len + 2))
                    else none
                | none => none
              else none
            | none =>
              if digits = [45, 49] then some (data.drop (ti + 2)) else none
          | none => none
        | none => none
      else if t = 42 then
        match findTerminator data with
        | some ti =>
          match utf8Field data ti with
          | some digits =>
            match parseU64 digits with
            | some n =>
              if digits = natToDecimal n then
                canonRespMany fuel n (data.drop (ti + 2))
              else none
            | none =>
              if digits = [45, 49] then some (data.drop (ti + 2)) else none
          | none => none
        | none => none
      else if t = 95 then
        match findTerminator data with
        | some ti => if ti = 1 then some (data.drop 3) else none
        | none => none
      else if t = 35 then
        match findTerminator data with
        | some ti =>
          if ti = 2 then
            match data.get? 1 with
            | some 116 => some (data.drop 4)
            | some 102 => some (data.drop 4)
            | _ => none
          else none
        | none => none
      else if t = 40 then
        match findTerminator data with
        | some ti =>
          match utf8Field data ti with
          | some digits =>
            if bigNumberOk digits then some (data.drop (ti + 2)) else none
          | none => none
        | none => none
      else none

/-- Canonicality of `n` consecutive wire values (the `Array` children). -/
def canonRespMany : Nat → Nat → List Nat → Option (List Nat)
  | 0, _, _ => none
  | _ + 1, 0, data => some data
  | fuel + 1, n + 1, data =>
    match canonRespF fuel data with
    | some rest => canonRespMany fuel n rest
    | none => none

end

/-! ## Message layer (src/message.rs) -/

/-- `ConfigKey` (src/config.rs). -/
inductive ConfigKey : Type where
  | dir
  | dbFilename
  | port
  | replicaOf
  | unknown
deriving DecidableEq, Repr

/-- `ConfigKey::deserialize`: ASCII-lowercase match; unknown keys map to
`Unknown` (the Rust function's `Result` is always `Ok`). -/
def ConfigKey.deserializeKey (s : List Nat) : ConfigKey :=
  let t := asciiLower s
  if t = strBytes "dir" then .dir
  else if t = strBytes "dbfilename" then .dbFilename
  else if t = strBytes "port" then .port
  else if t = strBytes "replicaof" then .replicaOf
  else .unknown

/-- `ConfigKey::serialize`; `none` is the `unreachable!()` panic on
`Unknown`. -/
def ConfigKey.serializeKey : ConfigKey → Option (List Nat)
  | .dir => some (strBytes "dir")
  | .dbFilename => some (strBytes "dbfilename")
  | .port => some (strBytes "port")
  | .replicaOf => some (strBytes "replicaof")
  | .unknown => none

/-- `GetResponse` (src/message.rs). -/
inductive GetResponse : Type where
  | found (value : List Nat)
  | notFound
deriving DecidableEq, Repr

/-- `ConfigGetResponse` (src/message.rs). -/
structure ConfigGetResponse : Type where
  key : ConfigKey
  values : List (List Nat)
deriving DecidableEq, Repr

/-- `Message` (src/message.rs).  `Duration` fields are `Nat` milliseconds;
`InfoResponse`'s nested `HashMap`s are association lists in insertion
order. -/
inductive Message : Type where
  | ping
  | pong
  | infoRequest (sections : List (List Nat))
  | infoResponse (sections : List (List Nat × List (List Nat × List Nat)))
  | keysRequest
  | keysResponse (keys : List (List Nat))
  | commandDocs
  | echo (s : List Nat)
  | replicationConfig (key : List Nat) (value : List Nat)
  | ok
  | psync (replicationId : List Nat) (offset : Int)
  | fullResync (replicationId : List Nat) (offset : Int)
  | set (key : List Nat) (value : List Nat) (expiry : Option Nat)
  | getRequest (key : List Nat)
  | getResponse (r : GetResponse)
  | configGetRequest (key : ConfigKey)
  | configGetResponse (r : Option ConfigGetResponse)
  | databaseFile (bytes : List Nat)
  | wait (numReplicas : Nat) (timeout : Nat)
  | waitReply (numReplicas : Nat)
deriving DecidableEq, Repr

/-- `Message::is_write_command` (src/message.rs lines 71-73):
`matches!(self, Message::Set { .. } | Message::GetRequest { .. })`. -/
def Message.isWriteCommand : Message → Bool
  | .set _ _ _ => true
  | .getRequest _ => true
  | _ => false

/-- The `as i64` cast of a `usize` (two's-complement reinterpretation). -/
def i64OfUsize (n : Nat) : Int :=
  let m : Nat := n % 2 ^ 64
  if m < 2 ^ 63 then (m : Int) else (m : Int) - 2 ^ 64

/-- `lines.join("\n")`. -/
def joinWith (sep : List Nat) : List (List Nat) → List Nat
  | [] => []
  | [x] => x
  | x :: y :: xs => x ++ sep ++ joinWith sep (y :: xs)

/-- The `RespValue` that `Message::serialize` builds before serializing it
(the `response_value` of the source `match`).  `none` models the one panic
path: `ConfigKey::serialize` on `Unknown`. -/
def Message.toResp : Message → Option RespValue
  | .ping => some (.array [.bulkString (strBytes "PING")])
  | .pong => some (.simpleString (strBytes "PONG"))
  | .echo s => some (.bulkString s)
  | .commandDocs => some (.array [])
  | .ok => some (.simpleString (strBytes "OK"))
  | .set key value expiry =>
    some (.array ([.bulkString (strBytes "SET"), .bulkString key, .bulkString value] ++
      match expiry with
      | some ms => [.bulkString (strBytes "PX"), .ownedBulkString (natToDecimal ms)]
      | none => []))
  | .getRequest key => some (.array [.bulkString (strBytes "GET"), .bulkString key])
  | .getResponse (.found value) => some (.bulkString value)
  | .getResponse .notFound => some .nullBulkString
  | .configGetRequest key =>
    (key.serializeKey).map fun kb =>
      .array [.bulkString (strBytes "CONFIG"), .bulkString (strBytes "GET"), .bulkString kb]
  | .configGetResponse (some r) =>
    (r.key.serializeKey).map fun kb =>
      .array (.bulkString kb :: r.values.map (fun v => .bulkString v))
  | .configGetResponse none => some .nullBulkString
  | .keysRequest => some (.array [.bulkString (strBytes "KEYS")])
  | .keysResponse keys => some (.array (keys.map (fun k => .bulkString k)))
  | .infoRequest sections =>
    some (.array (.bulkString (strBytes "INFO") :: sections.map (fun s => .bulkString s)))
  | .infoResponse sections =>
    let lines := sections.flatMap fun sec =>
      (35 :: sec.1) :: sec.2.map (fun kv => kv.1 ++ [58] ++ kv.2)
    if lines = [] then some .nullBulkString
    else some (.ownedBulkString (joinWith [10] lines))
  | .replicationConfig key value =>
    some (.array [.bulkString (strBytes "REPLCONF"), .bulkString key, .bulkString value])
  | .psync rid offset =>
    some (.array [.bulkString (strBytes "PSYNC"), .bulkString rid,
      .ownedBulkString (intToDecimal offset)])
  | .fullResync rid offset =>
    some (.ownedSimpleString (strBytes "FULLRESYNC " ++ rid ++ [32] ++ intToDecimal offset))
  | .databaseFile bytes => some (.rawBytes bytes)
  | .wait numReplicas timeout =>
    some (.array [.bulkString (strBytes "WAIT"), .ownedBulkString (natToDecimal numReplicas),
      .ownedBulkString (natToDecimal timeout)])
  | .waitReply numReplicas => some (.integer (i64OfUsize numReplicas))

/-- `Message::serialize`: build the `RespValue`, then serialize it. -/
def Message.serializeBytes (m : Message) : Option (List Nat) :=
  m.toResp.bind serializeResp

/-- `char::is_ascii_whitespace` as used by `split_ascii_whitespace`. -/
def isAsciiWs (c : Nat) : Bool :=
  c = 32 || c = 9 || c = 10 || c = 12 || c = 13

/-- Accumulator pass of `split_ascii_whitespace` (structural, so the kernel
can evaluate it). -/
def splitAsciiWsAux : List Nat → List Nat → List (List Nat)
  | [], acc => if acc = [] then [] else [acc.reverse]
  | c :: rest, acc =>
    if isAsciiWs c then
      if acc = [] then splitAsciiWsAux rest []
      else acc.reverse :: splitAsciiWsAux rest []
    else splitAsciiWsAux rest (c :: acc)

/-- `str::split_ascii_whitespace().collect::<Vec<_>>()`. -/
def splitAsciiWs (s : List Nat) : List (List Nat) :=
  splitAsciiWsAux s []

/-- The INFO arm's loop over `elements.iter().skip(1)`: every element must be
a bulk string; collects their payloads. -/
def collectBulkStrings : List RespValue → Option (List (List Nat))
  | [] => some []
  | .bulkString s :: rest => (collectBulkStrings rest).map (fun l => s :: l)
  | _ => none

/-- `Message::deserialize` (src/message.rs): empty-input check, RESP parse,
then the command dispatch on the ASCII-uppercased first element.  The
`FULLRESYNC` arm indexes `parts[1]` / `parts[2]` of the whitespace split of
the *uppercased* text — out-of-range indexing is `.panic`, as in the
source. -/
def Message.deserializeBytes (fuel : Nat) (data : List Nat) : DRes Message :=
  if data = [] then .err
  else
    match deserializeF fuel data with
    | .err => .err
    | .panic => .panic
    | .outOfFuel => .outOfFuel
    | .ok rv remainder =>
      match rv with
      | .rawBytes bytes => .ok (.databaseFile bytes) remainder
      | .simpleString s =>
        let u := asciiUpper s
        if u = strBytes "PONG" then .ok .pong remainder
        else if u = strBytes "OK" then .ok .ok remainder
        else if (strBytes "FULLRESYNC").isPrefixOf u then
          let parts := splitAsciiWs u
          match parts.get? 1 with
          | none => .panic
          | some p1 =>
            match parts.get? 2 with
            | none => .panic
            | some p2 =>
              match parseI64 p2 with
              | some offset => .ok (.fullResync p1 offset) remainder
              | none => .err
        else .err
      | .array elements =>
        match elements.get? 0 with
        | some (.bulkString s) =>
          let c := asciiUpper s
          if c = strBytes "PING" then .ok .ping remainder
          else if c = strBytes "ECHO" then
            match elements.get? 1 with
            | some (.bulkString e) => .ok (.echo e) remainder
            | _ => .err
          else if c = strBytes "COMMAND" then
            match elements.get? 1 with
            | some (.bulkString sub) =>
              if asciiUpper sub = strBytes "DOCS" then .ok .commandDocs remainder else .err
            | _ => .err
          else if c = strBytes "SET" then
            match elements.get? 1 with
            | some (.bulkString key) =>
              match elements.get? 2 with
              | some (.bulkString value) =>
                let expiry :=
                  match elements.get? 3 with
                  | some (.bulkString px) =>
                    if asciiUpper px = strBytes "PX" then
                      match elements.get? 4 with
                      | some (.bulkString ms) =>
                        match parseU64 ms with
                        | some millis => some millis
                        | none => none
                      | _ => none
                    else none
                  | _ => none
                .ok (.set key value expiry) remainder
              | _ => .err
            | _ => .err
          else if c = strBytes "GET" then
            match elements.get? 1 with
            | some (.bulkString key) => .ok (.getRequest key) remainder
            | _ => .err
          else if c = strBytes "CONFIG" then
            match elements.get? 1 with
            | some (.bulkString sub) =>
              if asciiUpper sub = strBytes "GET" then
                match elements.get? 2 with
                | some (.bulkString key) =>
                  .ok (.configGetRequest (ConfigKey.deserializeKey key)) remainder
                | _ => .err
              else .err
            | _ => .err
          else if c = strBytes "KEYS" then
            match elements.get? 1 with
            | some (.bulkString _) => .ok .keysRequest remainder
            | _ => .err
          else if c = strBytes "INFO" then
            match collectBulkStrings (elements.drop 1) with
            | some sections => .ok (.infoRequest sections) remainder
            | none => .err
          else if c = strBytes "REPLCONF" then
            match elements.get? 1 with
            | some (.bulkString key) =>
              match elements.get? 2 with
              | some (.bulkString value) => .ok (.replicationConfig key value) remainder
              | _ => .err
            | _ => .err
          else if c = strBytes "PSYNC" then
            match elements.get? 1 with
            | some (.bulkString rid) =>
              match elements.get? 2 with
              | some (.bulkString off) =>
                match parseI64 off with
                | some offset => .ok (.psync rid offset) remainder
                | none => .err
              | _ => .err
            | _ => .err
          else if c = strBytes "WAIT" then
            match elements.get? 1 with
            | some (.bulkString nr) =>
              match parseU64 nr with
              | some numReplicas =>
                match elements.get? 2 with
                | some (.bulkString to') =>
                  match parseU64 to' with
                  | some timeout => .ok (.wait numReplicas timeout) remainder
                  | none => .err
                | _ => .err
              | none => .err
            | _ => .err
          else .err
        | _ => .err
      | _ => .err

/-! ## Store (src/store.rs) and state core (src/state.rs) -/

/-- `StoreExpiry` (src/store.rs): a relative duration (milliseconds from
`updated`) or an absolute wall-clock millisecond timestamp. -/
inductive StoreExpiry : Type where
  | duration (ms : Nat)
  | unixTimestampMillis (t : Nat)
deriving DecidableEq, Repr

/-- `StoreValue` (src/store.rs); `updated` is the monotonic-clock reading. -/
structure StoreValue : Type where
  data : List Nat
  updated : Nat
  expiry : Option StoreExpiry
deriving DecidableEq, Repr

/-- `Store` (src/store.rs): the `HashMap<String, StoreValue>` as an
association list (iteration order stands in for the map's unspecified
order). -/
structure Store : Type where
  data : List (List Nat × StoreValue)
deriving DecidableEq, Repr

/-- `HashMap::insert`: replace the binding in place, or add it. -/
def assocInsert {κ α : Type} [DecidableEq κ] (k : κ) (v : α) :
    List (κ × α) → List (κ × α)
  | [] => [(k, v)]
  | (k', v') :: rest => if k' = k then (k, v) :: rest else (k', v') :: assocInsert k v rest

/-- `HashMap::get`. -/
def assocGet {κ α : Type} [DecidableEq κ] (k : κ) : List (κ × α) → Option α
  | [] => none
  | (k', v') :: rest => if k' = k then some v' else assocGet k rest

/-- `Config` (src/config.rs): the `HashMap<ConfigKey, Vec<String>>` as an
association list. -/
def Config : Type := List (ConfigKey × List (List Nat))

/-- `HandshakeState` (src/state.rs). -/
inductive HandshakeState : Type where
  | init
  | pingSent
  | pongRcvd
  | replConf1Sent
  | replConf1Rcvd
  | replConf2Sent
  | replConf2Rcvd
  | pSyncSent
  | complete
deriving DecidableEq, Repr

/-- `SlaveState` (src/state.rs). -/
structure SlaveState : Type where
  handshakeState : HandshakeState
deriving DecidableEq, Repr

/-- `MasterState` (src/state.rs). -/
structure MasterState : Type where
  replicationId : List Nat
  replicationOffset : Int
  sendRdb : Bool
deriving DecidableEq, Repr

/-- `RoleState` (src/state.rs). -/
inductive RoleState : Type where
  | slave (s : SlaveState)
  | master (m : MasterState)
deriving DecidableEq, Repr

/-- `State` (src/state.rs). -/
structure State : Type where
  store : Store
  config : Config
  roleState : RoleState

/-- `REPLICATION_ID` (src/main.rs line 31). -/
def replicationIdBytes : List Nat :=
  strBytes "8371b4fb1155b71f4a04d3e1bc3e18c4a990aeeb"

/-- `MasterState::default()`. -/
def MasterState.default : MasterState :=
  { replicationId := replicationIdBytes, replicationOffset := 0, sendRdb := false }

/-- `EMPTY_RDB_FILE` (src/state.rs lines 15-22). -/
def emptyRdbFile : List Nat :=
  [0x52, 0x45, 0x44, 0x49, 0x53, 0x30, 0x30, 0x31, 0x31, 0xfa, 0x09, 0x72, 0x65, 0x64, 0x69,
   0x73, 0x2d, 0x76, 0x65, 0x72, 0x05, 0x37, 0x2e, 0x32, 0x2e, 0x30, 0xfa, 0x0a, 0x72, 0x65,
   0x64, 0x69, 0x73, 0x2d, 0x62, 0x69, 0x74, 0x73, 0xc0, 0x40, 0xfa, 0x05, 0x63, 0x74, 0x69,
   0x6d, 0x65, 0xc2, 0x6d, 0x08, 0xbc, 0x65, 0xfa, 0x08, 0x75, 0x73, 0x65, 0x64, 0x2d, 0x6d,
   0x65, 0x6d, 0xc2, 0xb0, 0xc4, 0x10, 0x00, 0xfa, 0x08, 0x61, 0x6f, 0x66, 0x2d, 0x62, 0x61,
   0x73, 0x65, 0xc0, 0x00, 0xff, 0xf0, 0x6e, 0x3b, 0xfe, 0xc0, 0xff, 0x5a, 0xa2]

/-- `State::is_slave` (src/state.rs). -/
def State.isSlave (s : State) : Bool :=
  match s.roleState with
  | .slave _ => true
  | .master _ => false

/-- Outcome of a Rust call without a byte remainder: `Ok` / `Err` / panic. -/
inductive RRes (α : Type) : Type where
  | ok (v : α)
  | err
  | panic
deriving Repr

/-- `State::next_outgoing` (src/state.rs lines 110-149).  The slave side
drives the handshake; the master side emits the snapshot once while
`send_rdb` is set.  `.panic` models the `unwrap()` / `[0]` indexing on the
`Port` config entry in the `PongRcvd` arm. -/
def State.nextOutgoing (s : State) : RRes (Option Message × State) :=
  match s.roleState with
  | .slave ss =>
    match ss.handshakeState with
    | .init => .ok (some .ping, { s with roleState := .slave ⟨.pingSent⟩ })
    | .pongRcvd =>
      match assocGet ConfigKey.port s.config with
      | some (p :: _) =>
        .ok (some (.replicationConfig (strBytes "listening-port") p),
          { s with roleState := .slave ⟨.replConf1Sent⟩ })
      | some [] => .panic
      | none => .panic
    | .replConf1Rcvd =>
      .ok (some (.replicationConfig (strBytes "capa") (strBytes "psync2")),
        { s with roleState := .slave ⟨.replConf2Sent⟩ })
    | .replConf2Rcvd =>
      .ok (some (.psync (strBytes "?") (-1)), { s with roleState := .slave ⟨.pSyncSent⟩ })
    | _ => .ok (none, s)
  | .master ms =>
    if ms.sendRdb then
      .ok (some (.databaseFile emptyRdbFile),
        { s with roleState := .master { ms with sendRdb := false } })
    else .ok (none, s)

/-- `State::handle_incoming` (src/state.rs lines 151-294).  `now` is the
monotonic clock (`Instant::now()`, milliseconds) and `wallNow` the wall
clock in milliseconds since the epoch (`SystemTime::now()`; passing it as
an argument makes the `duration_since(UNIX_EPOCH)?` infallible).  Returns
the `Result<Option<Message>>` and the post-state of `&mut self`; `anyhow`
error payloads are not modelled (`Except.error ()`). -/
def State.handleIncoming (s : State) (message : Message) (now wallNow : Nat) :
    Except Unit (Option Message) × State :=
  match s.roleState with
  | .slave ss =>
    match message with
    | .pong =>
      let ss' := if ss.handshakeState = .pingSent then SlaveState.mk .pongRcvd else ss
      (.ok none, { s with roleState := .slave ss' })
    | .ok =>
      let ss' :=
        if ss.handshakeState = .replConf1Sent then SlaveState.mk .replConf1Rcvd
        else if ss.handshakeState = .replConf2Sent then SlaveState.mk .replConf2Rcvd
        else ss
      (.ok none, { s with roleState := .slave ss' })
    | .fullResync _ _ =>
      let ss' := if ss.handshakeState = .pSyncSent then SlaveState.mk .complete else ss
      (.ok none, { s with roleState := .slave ss' })
    | .infoRequest sections =>
      let sectionMaps :=
        if sections = [] ∨ sections.contains (strBytes "replication") then
          [(strBytes "Replication", [(strBytes "role", strBytes "slave")])]
        else []
      (.ok (some (.infoResponse sectionMaps)), s)
    | _ => (.error (), s)
  | .master ms =>
    match message with
    | .ping => (.ok (some .pong), s)
    | .echo m => (.ok (some (.echo m)), s)
    | .commandDocs => (.ok (some .commandDocs), s)
    | .set key value expiry =>
      let v : StoreValue :=
        { data := value, updated := now, expiry := expiry.map StoreExpiry.duration }
      (.ok (some .ok), { s with store := ⟨assocInsert key v s.store.data⟩ })
    | .getRequest key =>
      match assocGet key s.store.data with
      | some value =>
        match value.expiry with
        | some (.duration d) =>
          if now > value.updated + d then (.ok (some (.getResponse .notFound)), s)
          else (.ok (some (.getResponse (.found value.data))), s)
        | some (.unixTimestampMillis t) =>
          if t < wallNow then (.ok (some (.getResponse .notFound)), s)
          else (.ok (some (.getResponse (.found value.data))), s)
        | none => (.ok (some (.getResponse (.found value.data))), s)
      | none => (.ok (some (.getResponse .notFound)), s)
    | .configGetRequest key =>
      match assocGet key s.config with
      | some values => (.ok (some (.configGetResponse (some ⟨key, values⟩))), s)
      | none => (.ok (some (.configGetResponse none)), s)
    | .keysRequest =>
      (.ok (some (.keysResponse (s.store.data.map Prod.fst))), s)
    | .infoRequest sections =>
      let sectionMaps :=
        if sections = [] ∨ sections.contains (strBytes "replication") then
          [(strBytes "Replication",
            [(strBytes "role", strBytes "master"),
             (strBytes "master_replid", ms.replicationId),
             (strBytes "master_repl_offset", intToDecimal ms.replicationOffset)])]
        else []
      (.ok (some (.infoResponse sectionMaps)), s)
    | .replicationConfig _ _ => (.ok (some .ok), s)
    | .psync rid offset =>
      if rid = strBytes "?" ∧ offset = -1 then
        (.ok (some (.fullResync ms.replicationId ms.replicationOffset)),
          { s with roleState := .master { ms with sendRdb := true } })
      else (.ok none, s)
    | _ => (.error (), s)

/-! ## Snapshot reader (src/rdb.rs) -/

/-- `SpeciaLengthEncoding` (src/rdb.rs; the source's spelling). -/
inductive SpeciaLengthEncoding : Type where
  | integer (len : Nat)
  | compressed
deriving DecidableEq, Repr

/-- `LengthEncoding` (src/rdb.rs). -/
inductive LengthEncoding : Type where
  | length (len : Nat)
  | special (s : SpeciaLengthEncoding)
deriving DecidableEq, Repr

/-- `parse_length_encoding` (src/rdb.rs lines 122-162).  Branches on
`data[0] >> 6`; `.panic` covers the empty-input `assert!`, out-of-bounds
byte indexing, the `todo!("compressed string")` on format 3, and the
`unreachable!()` arm. -/
def parseLengthEncoding (data : List Nat) : RRes (LengthEncoding × Nat) :=
  match data with
  | [] => .panic
  | b0 :: rest =>
    let b := b0 % 256
    if b / 64 = 0 then .ok (.length (b % 64), 1)
    else if b / 64 = 1 then
      match rest with
      | b1 :: _ => .ok (.length ((b % 64) * 256 + b1 % 256), 2)
      | [] => .panic
    else if b / 64 = 2 then
      match rest with
      | b1 :: b2 :: b3 :: b4 :: _ =>
        .ok (.length ((b1 % 256) * 16777216 + (b2 % 256) * 65536 +
          (b3 % 256) * 256 + (b4 % 256)), 5)
      | _ => .panic
    else if b / 64 = 3 then
      if b % 64 = 0 then .ok (.special (.integer 1), 1)
      else if b % 64 = 1 then .ok (.special (.integer 2), 1)
      else if b % 64 = 2 then .ok (.special (.integer 4), 1)
      else if b % 64 = 3 then .panic
      else .err
    else .panic

/-- `parse_string` (src/rdb.rs lines 91-120): length encoding, then either a
UTF-8 checked raw slice of `len` bytes, or an integer-encoded string read
with `from_be_bytes` (1, 2 or 4 bytes) and rendered as decimal text.
`.panic` covers the `assert!`, out-of-bounds slicing/indexing, the
`unreachable!()` on other widths, and the `todo!()` on LZF compression. -/
def parseString (data : List Nat) : RRes (List Nat × Nat) :=
  match data with
  | [] => .panic
  | _ :: _ =>
    match parseLengthEncoding data with
    | .panic => .panic
    | .err => .err
    | .ok (enc, bytesReadEncoding) =>
      let rest := data.drop bytesReadEncoding
      match enc with
      | .length len =>
        match listSlice rest 0 len with
        | some payload =>
          if utf8Valid payload then .ok (payload, bytesReadEncoding + len) else .err
        | none => .panic
      | .special (.integer len) =>
        if len = 1 then
          match rest.get? 0 with
          | some r0 => .ok (natToDecimal (r0 % 256), bytesReadEncoding + 1)
          | none => .panic
        else if len = 2 then
          match rest.get? 0, rest.get? 1 with
          | some r0, some r1 =>
            .ok (natToDecimal ((r0 % 256) * 256 + (r1 % 256)), bytesReadEncoding + 2)
          | _, _ => .panic
        else if len = 4 then
          match rest.get? 0, rest.get? 1, rest.get? 2, rest.get? 3 with
          | some r0, some r1, some r2, some r3 =>
            .ok (natToDecimal ((r0 % 256) * 16777216 + (r1 % 256) * 65536 +
              (r2 % 256) * 256 + (r3 % 256)), bytesReadEncoding + 4)
          | _, _, _, _ => .panic
        else .panic
      | .special .compressed => .panic

/-- ASCII hex digit (`0-9a-fA-F`), for stating that the replication id is a
40-hex-character string. -/
def isHexDigitByte (c : Nat) : Bool :=
  isDigitByte c || (97 ≤ c && c ≤ 102) || (65 ≤ c && c ≤ 70)

/-! ## Helper lemmas -/

/-- Inserting then looking up the same key yields the inserted value. -/
theorem assocGet_assocInsert {κ α : Type} [DecidableEq κ] (k : κ) (v : α) :
    ∀ l : List (κ × α), assocGet k (assocInsert k v l) = some v := by
  intro l
  induction l with
  | nil => simp [assocInsert, assocGet]
  | cons hd tl ih =>
    obtain ⟨k', v'⟩ := hd
    by_cases h : k' = k
    · simp [assocInsert, assocGet, h]
    · simp [assocInsert, assocGet, h, ih]

/-- The RESP parser never succeeds on empty input (it asserts). -/
theorem deserializeF_nil (fuel : Nat) (v : RespValue) (r : List Nat) :
    deserializeF fuel [] ≠ .ok v r := by
  cases fuel <;> simp [deserializeF]

theorem findTerminator_drop : ∀ (l : List Nat) (i : Nat),
    findTerminator l = some i → l.drop i = 13 :: 10 :: l.drop (i + 2) := by
  intro l
  induction l with
  | nil => intro i h; simp [findTerminator] at h
  | cons a rest ih =>
    intro i h
    cases rest with
    | nil => simp [findTerminator] at h
    | cons b t =>
      rw [show findTerminator (a :: b :: t) =
          (if a = 13 ∧ b = 10 then some 0 else (findTerminator (b :: t)).map (· + 1)) from rfl] at h
      split at h
      · rename_i hab
        obtain ⟨rfl, rfl⟩ := hab
        cases h
        rfl
      · cases hj : findTerminator (b :: t) with
        | none => rw [hj] at h; simp at h
        | some j =>
          rw [hj] at h
          simp at h
          subst h
          have hrec := ih j hj
          simpa using hrec

theorem take2_crlf (l : List Nat) (a : Nat) (h : (l.drop a).take 2 = [13, 10]) :
    l.drop a = 13 :: 10 :: l.drop (a + 2) := by
  conv_lhs => rw [← List.take_append_drop 2 (l.drop a)]
  rw [h, List.drop_drop]
  norm_num [Nat.add_comm]

theorem length_extractList (l : List Nat) (a b : Nat) (hb : b ≤ l.length) :
    (extractList l a b).length = b - a := by
  simp [extractList, List.length_take, List.length_drop]
  omega

theorem drop_extract_decomp (l : List Nat) (a b : Nat) (hab : a ≤ b) :
    l.drop a = extractList l a b ++ l.drop b := by
  conv_lhs => rw [← List.take_append_drop (b - a) (l.drop a)]
  have h2 : (l.drop a).drop (b - a) = l.drop b := by
    rw [List.drop_drop]
    congr 1
    omega
  rw [h2]
  rfl

theorem listSlice_eq_some {l : List Nat} {a b : Nat} {s : List Nat}
    (h : listSlice l a b = some s) :
    a ≤ b ∧ b ≤ l.length ∧ s = extractList l a b := by
  unfold listSlice at h
  split at h
  · rename_i hc
    exact ⟨hc.1, hc.2, (Option.some_inj.mp h).symm⟩
  · exact absurd h (by simp)

theorem utf8Field_eq_some {data : List Nat} {ti : Nat} {f : List Nat}
    (h : utf8Field data ti = some f) : f = extractList data 1 ti := by
  by_cases hu : utf8Valid (extractList data 1 ti) = true
  · simp [utf8Field, hu] at h
    exact h.symm
  · simp [utf8Field, hu] at h

/-- Full decomposition of a line-shaped frame: tag byte, field, CRLF, rest. -/
theorem line_decomp (a : Nat) (tl : List Nat) (ti : Nat)
    (h : findTerminator (a :: tl) = some ti) (ha : a ≠ 13) :
    a :: tl = a :: extractList (a :: tl) 1 ti ++ 13 :: 10 :: (a :: tl).drop (ti + 2) := by
  have hd := findTerminator_drop _ _ h
  have hti : 1 ≤ ti := by
    rcases Nat.eq_zero_or_pos ti with h0 | h1
    · subst h0
      simp at hd
      exact absurd hd.1 ha
    · exact h1
  have hdec := drop_extract_decomp (a :: tl) 1 ti hti
  calc a :: tl = (a :: tl).take 1 ++ (a :: tl).drop 1 := (List.take_append_drop 1 _).symm
    _ = a :: ((a :: tl).drop 1) := by rfl
    _ = a :: (extractList (a :: tl) 1 ti ++ (a :: tl).drop ti) := by rw [← hdec]
    _ = a :: extractList (a :: tl) 1 ti ++ 13 :: 10 :: (a :: tl).drop (ti + 2) := by
        rw [hd]; simp

set_option maxHeartbeats 3000000

/-- Round-trip core: when the fueled RESP parser succeeds on `data` with
remainder `rest` and the canonical-numeral walk succeeds with remainder
`rest'`, the remainders agree and re-serializing the parsed value reproduces
the consumed prefix byte for byte (and likewise for a run of `n` array
children). -/
theorem roundtrip_aux : ∀ fuel : Nat,
    (∀ data v rest rest', deserializeF fuel data = .ok v rest →
      canonRespF fuel data = some rest' →
      rest' = rest ∧ ∃ out, serializeResp v = some out ∧ data = out ++ rest) ∧
    (∀ n data vs rest rest', deserializeMany fuel n data = .ok vs rest →
      canonRespMany fuel n data = some rest' →
      rest' = rest ∧ vs.length = n ∧ ∃ out, serializeList vs = some out ∧ data = out ++ rest) := by
  intro fuel
  induction fuel with
  | zero =>
    constructor
    · intro data v rest rest' hd
      simp [deserializeF] at hd
    · intro n data vs rest rest' hd
      simp [deserializeMany] at hd
  | succ fuel ih =>
    obtain ⟨ih1, ih2⟩ := ih
    constructor
    · intro data v rest rest' hd hc
      match data with
      | [] => simp [deserializeF] at hd
      | t :: tl =>
      by_cases h43 : t = 43
      · subst h43
        cases hft : findTerminator (43 :: tl) with
        | none =>
          rw [show deserializeF (fuel + 1) (43 :: tl) = .err by simp [deserializeF, hft]] at hd
          exact absurd hd (by simp)
        | some ti =>
          cases hfu : utf8Field (43 :: tl) ti with
          | none =>
            rw [show deserializeF (fuel + 1) (43 :: tl) = .err by
              simp [deserializeF, hft, hfu]] at hd
            exact absurd hd (by simp)
          | some s =>
            rw [show deserializeF (fuel + 1) (43 :: tl) =
                .ok (.simpleString s) ((43 :: tl).drop (ti + 2)) by
              simp [deserializeF, hft, hfu]] at hd
            rw [show canonRespF (fuel + 1) (43 :: tl) = some ((43 :: tl).drop (ti + 2)) by
              simp [canonRespF, hft, hfu]] at hc
            injection hd with hv hr
            subst hv; subst hr
            injection hc with hr'
            refine ⟨hr'.symm, 43 :: s ++ [13, 10], rfl, ?_⟩
            have hl := line_decomp 43 tl ti hft (by omega)
            rw [utf8Field_eq_some hfu]
            simpa using hl
      · by_cases h45 : t = 45
        · subst h45
          cases hft : findTerminator (45 :: tl) with
          | none =>
            rw [show deserializeF (fuel + 1) (45 :: tl) = .err by simp [deserializeF, hft]] at hd
            exact absurd hd (by simp)
          | some ti =>
            cases hfu : utf8Field (45 :: tl) ti with
            | none =>
              rw [show deserializeF (fuel + 1) (45 :: tl) = .err by
                simp [deserializeF, hft, hfu]] at hd
              exact absurd hd (by simp)
            | some s =>
              rw [show deserializeF (fuel + 1) (45 :: tl) =
                  .ok (.simpleError s) ((45 :: tl).drop (ti + 2)) by
                simp [deserializeF, hft, hfu]] at hd
              rw [show canonRespF (fuel + 1) (45 :: tl) = some ((45 :: tl).drop (ti + 2)) by
                simp [canonRespF, hft, hfu]] at hc
              injection hd with hv hr
              subst hv; subst hr
              injection hc with hr'
              refine ⟨hr'.symm, 45 :: s ++ [13, 10], rfl, ?_⟩
              have hl := line_decomp 45 tl ti hft (by omega)
              rw [utf8Field_eq_some hfu]
              simpa using hl
        · by_cases h58 : t = 58
          · subst h58
            cases hft : findTerminator (58 :: tl) with
            | none =>
              rw [show deserializeF (fuel + 1) (58 :: tl) = .err by
                simp [deserializeF, hft]] at hd
              exact absurd hd (by simp)
            | some ti =>
              cases hfu : utf8Field (58 :: tl) ti with
              | none =>
                rw [show deserializeF (fuel + 1) (58 :: tl) = .err by
                  simp [deserializeF, hft, hfu]] at hd
                exact absurd hd (by simp)
              | some s =>
                cases hpi : parseI64 s with
                | none =>
                  rw [show deserializeF (fuel + 1) (58 :: tl) = .err by
                    simp [deserializeF, hft, hfu, hpi]] at hd
                  exact absurd hd (by simp)
                | some n =>
                  rw [show deserializeF (fuel + 1) (58 :: tl) =
                      .ok (.integer n) ((58 :: tl).drop (ti + 2)) by
                    simp [deserializeF, hft, hfu, hpi]] at hd
                  by_cases hcs : s = intToDecimal n
                  · have hpi' : parseI64 (intToDecimal n) = some n := by
                      rw [← hcs]; exact hpi
                    rw [show canonRespF (fuel + 1) (58 :: tl) =
                        some ((58 :: tl).drop (ti + 2)) by
                      simp [canonRespF, hft, hfu, hpi, hpi', hcs]] at hc
                    injection hd with hv hr
                    subst hv; subst hr
                    injection hc with hr'
                    refine ⟨hr'.symm, 58 :: intToDecimal n ++ [13, 10], rfl, ?_⟩
                    have hl := line_decomp 58 tl ti hft (by omega)
                    rw [← hcs, utf8Field_eq_some hfu]
                    simpa using hl
                  · rw [show canonRespF (fuel + 1) (58 :: tl) = none by
                      simp [canonRespF, hft, hfu, hpi, hcs]] at hc
                    exact absurd hc (by simp)
          · by_cases h36 : t = 36
            · subst h36
              cases hft : findTerminator (36 :: tl) with
              | none =>
                rw [show deserializeF (fuel + 1) (36 :: tl) = .err by
                  simp [deserializeF, hft]] at hd
                exact absurd hd (by simp)
              | some ti =>
                cases hfu : utf8Field (36 :: tl) ti with
                | none =>
                  rw [show deserializeF (fuel + 1) (36 :: tl) = .err by
                    simp [deserializeF, hft, hfu]] at hd
                  exact absurd hd (by simp)
                | some digits =>
                  cases hpu : parseU64 digits with
                  | none =>
                    by_cases hm1 : digits = [45, 49]
                    · have hpu' : parseU64 [45, 49] = none := by
                        rw [← hm1]; exact hpu
                      rw [show deserializeF (fuel + 1) (36 :: tl) =
                          .ok .nullBulkString ((36 :: tl).drop (ti + 2)) by
                        simp [deserializeF, hft, hfu, hpu, hpu', hm1]] at hd
                      rw [show canonRespF (fuel + 1) (36 :: tl) =
                          some ((36 :: tl).drop (ti + 2)) by
                        simp [canonRespF, hft, hfu, hpu, hpu', hm1]] at hc
                      injection hd with hv hr
                      subst hv; subst hr
                      injection hc with hr'
                      refine ⟨hr'.symm, 36 :: [45, 49] ++ [13, 10], rfl, ?_⟩
                      have hl := line_decomp 36 tl ti hft (by omega)
                      have hdig : extractList (36 :: tl) 1 ti = [45, 49] :=
                        (utf8Field_eq_some hfu).symm.trans hm1
                      rw [hdig] at hl
                      simpa using hl
                    · rw [show deserializeF (fuel + 1) (36 :: tl) = .err by
                        simp [deserializeF, hft, hfu, hpu, hm1]] at hd
                      exact absurd hd (by simp)
                  | some len =>
                    cases hsl : listSlice (36 :: tl) (ti + 2 + len) (ti + 2 + len + 2) with
                    | none =>
                      rw [show deserializeF (fuel + 1) (36 :: tl) = .panic by
                        simp [deserializeF, hft, hfu, hpu, hsl]] at hd
                      exact absurd hd (by simp)
                    | some look =>
                      obtain ⟨hab, hbl, hlookeq⟩ := listSlice_eq_some hsl
                      by_cases hcd : digits = natToDecimal len
                      · have hpu' : parseU64 (natToDecimal len) = some len := by
                          rw [← hcd]; exact hpu
                        have hdig : extractList (36 :: tl) 1 ti = natToDecimal len :=
                          (utf8Field_eq_some hfu).symm.trans hcd
                        have hl := line_decomp 36 tl ti hft (by omega)
                        have hplen :
                            (extractList (36 :: tl) (ti + 2) (ti + 2 + len)).length = len := by
                          rw [length_extractList _ _ _ (by omega)]
                          omega
                        have hmid :=
                          drop_extract_decomp (36 :: tl) (ti + 2) (ti + 2 + len) (by omega)
                        by_cases hlk : look = [13, 10]
                        · by_cases hpv :
                              utf8Valid (extractList (36 :: tl) (ti + 2) (ti + 2 + len)) = true
                          · rw [show deserializeF (fuel + 1) (36 :: tl) =
                                .ok (.bulkString (extractList (36 :: tl) (ti + 2) (ti + 2 + len)))
                                  ((36 :: tl).drop (ti + 2 + len + 2)) by
                              simp [deserializeF, hft, hfu, hpu, hpu', hsl, hlk, hpv]] at hd
                            rw [show canonRespF (fuel + 1) (36 :: tl) =
                                some ((36 :: tl).drop (ti + 2 + len + 2)) by
                              simp [canonRespF, hft, hfu, hpu, hpu', hcd, hsl, hlk, hpv]] at hc
                            injection hd with hv hr
                            subst hv; subst hr
                            injection hc with hr'
                            have h2 : ti + 2 + len + 2 - (ti + 2 + len) = 2 := by omega
                            have htk : ((36 :: tl).drop (ti + 2 + len)).take 2 = [13, 10] := by
                              have hx := hlookeq.symm.trans hlk
                              rwa [extractList, h2] at hx
                            have hend := take2_crlf (36 :: tl) (ti + 2 + len) htk
                            refine ⟨hr'.symm,
                              36 :: natToDecimal len ++ [13, 10] ++
                                extractList (36 :: tl) (ti + 2) (ti + 2 + len) ++ [13, 10],
                              by simp [serializeResp, hplen], ?_⟩
                            conv_lhs => rw [hl]
                            rw [hdig, hmid, hend]
                            simp
                          · rw [show deserializeF (fuel + 1) (36 :: tl) = .err by
                              simp [deserializeF, hft, hfu, hpu, hsl, hlk, hpv]] at hd
                            exact absurd hd (by simp)
                        · rw [show deserializeF (fuel + 1) (36 :: tl) =
                              .ok (.rawBytes (extractList (36 :: tl) (ti + 2) (ti + 2 + len)))
                                ((36 :: tl).drop (ti + 2 + len)) by
                            simp [deserializeF, hft, hfu, hpu, hsl, hlk]] at hd
                          rw [show canonRespF (fuel + 1) (36 :: tl) =
                              some ((36 :: tl).drop (ti + 2 + len)) by
                            simp [canonRespF, hft, hfu, hpu, hpu', hcd, hsl, hlk]] at hc
                          injection hd with hv hr
                          subst hv; subst hr
                          injection hc with hr'
                          refine ⟨hr'.symm,
                            36 :: natToDecimal len ++ [13, 10] ++
                              extractList (36 :: tl) (ti + 2) (ti + 2 + len),
                            by simp [serializeResp, hplen], ?_⟩
                          conv_lhs => rw [hl]
                          rw [hdig, hmid]
                          simp
                      · rw [show canonRespF (fuel + 1) (36 :: tl) = none by
                          simp [canonRespF, hft, hfu, hpu, hcd]] at hc
                        exact absurd hc (by simp)
            · by_cases h42 : t = 42
              · subst h42
                cases hft : findTerminator (42 :: tl) with
                | none =>
                  rw [show deserializeF (fuel + 1) (42 :: tl) = .err by
                    simp [deserializeF, hft]] at hd
                  exact absurd hd (by simp)
                | some ti =>
                  cases hfu : utf8Field (42 :: tl) ti with
                  | none =>
                    rw [show deserializeF (fuel + 1) (42 :: tl) = .err by
                      simp [deserializeF, hft, hfu]] at hd
                    exact absurd hd (by simp)
                  | some digits =>
                    cases hpu : parseU64 digits with
                    | none =>
                      by_cases hm1 : digits = [45, 49]
                      · have hpu' : parseU64 [45, 49] = none := by
                          rw [← hm1]; exact hpu
                        rw [show deserializeF (fuel + 1) (42 :: tl) =
                            .ok .nullArray ((42 :: tl).drop (ti + 2)) by
                          simp [deserializeF, hft, hfu, hpu, hpu', hm1]] at hd
                        rw [show canonRespF (fuel + 1) (42 :: tl) =
                            some ((42 :: tl).drop (ti + 2)) by
                          simp [canonRespF, hft, hfu, hpu, hpu', hm1]] at hc
                        injection hd with hv hr
                        subst hv; subst hr
                        injection hc with hr'
                        refine ⟨hr'.symm, 42 :: [45, 49] ++ [13, 10], rfl, ?_⟩
                        have hl := line_decomp 42 tl ti hft (by omega)
                        have hdig : extractList (42 :: tl) 1 ti = [45, 49] :=
                          (utf8Field_eq_some hfu).symm.trans hm1
                        rw [hdig] at hl
                        simpa using hl
                      · rw [show deserializeF (fuel + 1) (42 :: tl) = .err by
                          simp [deserializeF, hft, hfu, hpu, hm1]] at hd
                        exact absurd hd (by simp)
                    | some n =>
                      by_cases hcd : digits = natToDecimal n
                      · have hpu' : parseU64 (natToDecimal n) = some n := by
                          rw [← hcd]; exact hpu
                        have hdd : (42 :: tl).drop (ti + 2) = tl.drop (ti + 1) := by simp
                        cases hdm : deserializeMany fuel n (tl.drop (ti + 1)) with
                        | err =>
                          rw [show deserializeF (fuel + 1) (42 :: tl) = .err by
                            simp [deserializeF, hft, hfu, hpu, hdm]] at hd
                          exact absurd hd (by simp)
                        | panic =>
                          rw [show deserializeF (fuel + 1) (42 :: tl) = .panic by
                            simp [deserializeF, hft, hfu, hpu, hdm]] at hd
                          exact absurd hd (by simp)
                        | outOfFuel =>
                          rw [show deserializeF (fuel + 1) (42 :: tl) = .outOfFuel by
                            simp [deserializeF, hft, hfu, hpu, hdm]] at hd
                          exact absurd hd (by simp)
                        | ok elems rest1 =>
                          rw [show deserializeF (fuel + 1) (42 :: tl) =
                              .ok (.array elems) rest1 by
                            simp [deserializeF, hft, hfu, hpu, hdm]] at hd
                          rw [show canonRespF (fuel + 1) (42 :: tl) =
                              canonRespMany fuel n (tl.drop (ti + 1)) by
                            simp [canonRespF, hft, hfu, hpu, hpu', hcd]] at hc
                          injection hd with hv hr
                          subst hv; subst hr
                          obtain ⟨hrr, hlen, out1, hs1, hsplit⟩ :=
                            ih2 n (tl.drop (ti + 1)) elems rest1 rest' hdm hc
                          refine ⟨hrr, 42 :: natToDecimal n ++ [13, 10] ++ out1,
                            by simp [serializeResp, hs1, hlen], ?_⟩
                          have hl := line_decomp 42 tl ti hft (by omega)
                          have hdig : extractList (42 :: tl) 1 ti = natToDecimal n :=
                            (utf8Field_eq_some hfu).symm.trans hcd
                          rw [hdd] at hl
                          conv_lhs => rw [hl]
                          rw [hdig, hsplit]
                          simp
                      · rw [show canonRespF (fuel + 1) (42 :: tl) = none by
                          simp [canonRespF, hft, hfu, hpu, hcd]] at hc
                        exact absurd hc (by simp)
              · by_cases h95 : t = 95
                · subst h95
                  cases hft : findTerminator (95 :: tl) with
                  | none =>
                    rw [show deserializeF (fuel + 1) (95 :: tl) = .err by
                      simp [deserializeF, hft]] at hd
                    exact absurd hd (by simp)
                  | some ti =>
                    by_cases hti : ti = 1
                    · subst hti
                      rw [show deserializeF (fuel + 1) (95 :: tl) =
                          .ok .null ((95 :: tl).drop 3) by
                        simp [deserializeF, hft]] at hd
                      rw [show canonRespF (fuel + 1) (95 :: tl) =
                          some ((95 :: tl).drop 3) by
                        simp [canonRespF, hft]] at hc
                      injection hd with hv hr
                      subst hv; subst hr
                      injection hc with hr'
                      refine ⟨hr'.symm, 95 :: [13, 10], rfl, ?_⟩
                      have hdr := findTerminator_drop _ _ hft
                      conv_lhs => rw [show tl = 13 :: 10 :: (95 :: tl).drop 3 by
                        simpa using hdr]
                      simp
                    · rw [show deserializeF (fuel + 1) (95 :: tl) = .err by
                        simp [deserializeF, hft, hti]] at hd
                      exact absurd hd (by simp)
                · by_cases h35 : t = 35
                  · subst h35
                    cases hft : findTerminator (35 :: tl) with
                    | none =>
                      rw [show deserializeF (fuel + 1) (35 :: tl) = .err by
                        simp [deserializeF, hft]] at hd
                      exact absurd hd (by simp)
                    | some ti =>
                      by_cases hti : ti = 2
                      · subst hti
                        cases tl with
                        | nil => simp [findTerminator] at hft
                        | cons b0 tl2 =>
                          by_cases hb1 : b0 = 116
                          · subst hb1
                            rw [show deserializeF (fuel + 1) (35 :: 116 :: tl2) =
                                .ok (.boolean true) ((35 :: 116 :: tl2).drop 4) by
                              simp [deserializeF, hft]] at hd
                            rw [show canonRespF (fuel + 1) (35 :: 116 :: tl2) =
                                some ((35 :: 116 :: tl2).drop 4) by
                              simp [canonRespF, hft]] at hc
                            injection hd with hv hr
                            subst hv; subst hr
                            injection hc with hr'
                            refine ⟨hr'.symm, 35 :: 116 :: [13, 10], rfl, ?_⟩
                            have hdr := findTerminator_drop _ _ hft
                            conv_lhs => rw [show tl2 = 13 :: 10 :: (35 :: 116 :: tl2).drop 4 by
                              simpa using hdr]
                            simp
                          · by_cases hb2 : b0 = 102
                            · subst hb2
                              rw [show deserializeF (fuel + 1) (35 :: 102 :: tl2) =
                                  .ok (.boolean false) ((35 :: 102 :: tl2).drop 4) by
                                simp [deserializeF, hft]] at hd
                              rw [show canonRespF (fuel + 1) (35 :: 102 :: tl2) =
                                  some ((35 :: 102 :: tl2).drop 4) by
                                simp [canonRespF, hft]] at hc
                              injection hd with hv hr
                              subst hv; subst hr
                              injection hc with hr'
                              refine ⟨hr'.symm, 35 :: 102 :: [13, 10], rfl, ?_⟩
                              have hdr := findTerminator_drop _ _ hft
                              conv_lhs => rw [show tl2 = 13 :: 10 :: (35 :: 102 :: tl2).drop 4 by
                                simpa using hdr]
                              simp
                            · rw [show deserializeF (fuel + 1) (35 :: b0 :: tl2) = .err by
                                simp [deserializeF, hft, hb1, hb2]] at hd
                              exact absurd hd (by simp)
                      · rw [show deserializeF (fuel + 1) (35 :: tl) = .err by
                          simp [deserializeF, hft, hti]] at hd
                        exact absurd hd (by simp)
                  · by_cases h44 : t = 44
                    · subst h44
                      rw [show canonRespF (fuel + 1) (44 :: tl) = none by
                        simp [canonRespF]] at hc
                      exact absurd hc (by simp)
                    · by_cases h40 : t = 40
                      · subst h40
                        cases hft : findTerminator (40 :: tl) with
                        | none =>
                          rw [show deserializeF (fuel + 1) (40 :: tl) = .err by
                            simp [deserializeF, hft]] at hd
                          exact absurd hd (by simp)
                        | some ti =>
                          cases hfu : utf8Field (40 :: tl) ti with
                          | none =>
                            rw [show deserializeF (fuel + 1) (40 :: tl) = .err by
                              simp [deserializeF, hft, hfu]] at hd
                            exact absurd hd (by simp)
                          | some digits =>
                            by_cases hbn : bigNumberOk digits = true
                            · rw [show deserializeF (fuel + 1) (40 :: tl) =
                                  .ok (.bigNumber digits) ((40 :: tl).drop (ti + 2)) by
                                simp [deserializeF, hft, hfu, hbn]] at hd
                              rw [show canonRespF (fuel + 1) (40 :: tl) =
                                  some ((40 :: tl).drop (ti + 2)) by
                                simp [canonRespF, hft, hfu, hbn]] at hc
                              injection hd with hv hr
                              subst hv; subst hr
                              injection hc with hr'
                              refine ⟨hr'.symm, 40 :: digits ++ [13, 10], rfl, ?_⟩
                              have hl := line_decomp 40 tl ti hft (by omega)
                              rw [utf8Field_eq_some hfu]
                              simpa using hl
                            · rw [show deserializeF (fuel + 1) (40 :: tl) = .err by
                                simp [deserializeF, hft, hfu, hbn]] at hd
                              exact absurd hd (by simp)
                      · rw [show deserializeF (fuel + 1) (t :: tl) =
                            (if t = 33 ∨ t = 61 ∨ t = 37 ∨ t = 126 ∨ t = 62
                              then DRes.panic else DRes.err) by
                          simp [deserializeF, h43, h45, h58, h36, h42, h95, h35, h44, h40]] at hd
                        split at hd <;> exact absurd hd (by simp)
    · intro n data vs rest rest' hd hc
      cases n with
      | zero =>
        rw [show deserializeMany (fuel + 1) 0 data = .ok [] data from rfl] at hd
        injection hd with hv hr
        subst hv; subst hr
        rw [show canonRespMany (fuel + 1) 0 data = some data from rfl] at hc
        injection hc with hr'
        exact ⟨hr'.symm, rfl, [], rfl, by simp⟩
      | succ m =>
        cases he : deserializeF fuel data with
        | err =>
          rw [show deserializeMany (fuel + 1) (m + 1) data = .err by
            simp [deserializeMany, he]] at hd
          exact absurd hd (by simp)
        | panic =>
          rw [show deserializeMany (fuel + 1) (m + 1) data = .panic by
            simp [deserializeMany, he]] at hd
          exact absurd hd (by simp)
        | outOfFuel =>
          rw [show deserializeMany (fuel + 1) (m + 1) data = .outOfFuel by
            simp [deserializeMany, he]] at hd
          exact absurd hd (by simp)
        | ok v1 r1 =>
          cases hm : deserializeMany fuel m r1 with
          | err =>
            rw [show deserializeMany (fuel + 1) (m + 1) data = .err by
              simp [deserializeMany, he, hm]] at hd
            exact absurd hd (by simp)
          | panic =>
            rw [show deserializeMany (fuel + 1) (m + 1) data = .panic by
              simp [deserializeMany, he, hm]] at hd
            exact absurd hd (by simp)
          | outOfFuel =>
            rw [show deserializeMany (fuel + 1) (m + 1) data = .outOfFuel by
              simp [deserializeMany, he, hm]] at hd
            exact absurd hd (by simp)
          | ok vs1 r2 =>
            rw [show deserializeMany (fuel + 1) (m + 1) data = .ok (v1 :: vs1) r2 by
              simp [deserializeMany, he, hm]] at hd
            injection hd with hv hr
            subst hv
            subst hr
            cases hce : canonRespF fuel data with
            | none =>
              rw [show canonRespMany (fuel + 1) (m + 1) data = none by
                simp [canonRespMany, hce]] at hc
              exact absurd hc (by simp)
            | some rc1 =>
              rw [show canonRespMany (fuel + 1) (m + 1) data =
                  canonRespMany fuel m rc1 by
                simp [canonRespMany, hce]] at hc
              obtain ⟨hre, out1, hs1, hsp1⟩ := ih1 _ _ _ _ he hce
              subst hre
              obtain ⟨hre2, hlen, out2, hs2, hsp2⟩ := ih2 _ _ _ _ _ hm hc
              refine ⟨hre2, by simp [hlen], out1 ++ out2, ?_, ?_⟩
              · simp [serializeList, hs1, hs2]
              · rw [hsp1, hsp2]
                simp

/-! ## Claim theorems -/

/-- Claim C1.  The claim says a `Set` delivered to a `State` in the Slave
role is applied to the store and answered with `Ok(None)`.  The code does the
opposite: the Slave branch of `handle_incoming` has no `Set` arm, so the
message falls through to the catch-all and returns `Err` with the store, the
config and the role state untouched (and `handle_connection`'s
`unwrap_or_else` then panics the connection task). -/
theorem c1_slave_set_is_rejected_not_applied (ss : SlaveState) (store : Store)
    (cfg : Config) (k v : List Nat) (e : Option Nat) (now wallNow : Nat) :
    State.handleIncoming ⟨store, cfg, .slave ss⟩ (.set k v e) now wallNow =
      (.error (), ⟨store, cfg, .slave ss⟩) := rfl

/-- Claim C2.  The claim says `is_write_command` is true for `Set` and false
for every other message, in particular `GetRequest`.  In the code
(src/message.rs lines 71-73) the matcher is
`Message::Set { .. } | Message::GetRequest { .. }`, so `GetRequest` is also
classified as a write command and GETs enter the replication fan-out. -/
theorem c2_is_write_command_true_for_get (k k2 v : List Nat) (e : Option Nat) :
    Message.isWriteCommand (.getRequest k) = true ∧
    Message.isWriteCommand (.set k2 v e) = true := ⟨rfl, rfl⟩

/-- Claim C3.  After `SET k v PX d` handled at monotonic time `t0` (in the
Master role), a `GetRequest k` at time `t < t0 + d` answers
`GetResponse::Found v` and at `t > t0 + d` answers `GetResponse::NotFound`,
in both cases leaving the state unchanged. -/
theorem c3_set_px_get_expiry (store : Store) (cfg : Config) (ms : MasterState)
    (k v : List Nat) (d t0 wall1 t wall2 : Nat) :
    (State.handleIncoming ⟨store, cfg, .master ms⟩ (.set k v (some d)) t0 wall1).2 =
      ⟨⟨assocInsert k ⟨v, t0, some (.duration d)⟩ store.data⟩, cfg, .master ms⟩ ∧
    (t < t0 + d →
      State.handleIncoming
          ⟨⟨assocInsert k ⟨v, t0, some (.duration d)⟩ store.data⟩, cfg, .master ms⟩
          (.getRequest k) t wall2 =
        (.ok (some (.getResponse (.found v))),
          ⟨⟨assocInsert k ⟨v, t0, some (.duration d)⟩ store.data⟩, cfg, .master ms⟩)) ∧
    (t0 + d < t →
      State.handleIncoming
          ⟨⟨assocInsert k ⟨v, t0, some (.duration d)⟩ store.data⟩, cfg, .master ms⟩
          (.getRequest k) t wall2 =
        (.ok (some (.getResponse .notFound)),
          ⟨⟨assocInsert k ⟨v, t0, some (.duration d)⟩ store.data⟩, cfg, .master ms⟩)) := by
  refine ⟨rfl, ?_, ?_⟩ <;> intro ht <;>
    simp [State.handleIncoming, assocGet_assocInsert] <;> omega

/-- Witness for C3: `SET k v PX 5` at `t0 = 0`, read back at `t = 3`
(found) and `t = 9` (expired). -/
theorem c3_set_px_get_expiry_witness :
    State.handleIncoming
        ⟨⟨assocInsert [107] ⟨[118], 0, some (.duration 5)⟩ []⟩, [], .master MasterState.default⟩
        (.getRequest [107]) 3 0 =
      (.ok (some (.getResponse (.found [118]))),
        ⟨⟨assocInsert [107] ⟨[118], 0, some (.duration 5)⟩ []⟩, [], .master MasterState.default⟩) ∧
    State.handleIncoming
        ⟨⟨assocInsert [107] ⟨[118], 0, some (.duration 5)⟩ []⟩, [], .master MasterState.default⟩
        (.getRequest [107]) 9 0 =
      (.ok (some (.getResponse .notFound)),
        ⟨⟨assocInsert [107] ⟨[118], 0, some (.duration 5)⟩ []⟩, [], .master MasterState.default⟩) :=
  ⟨(c3_set_px_get_expiry ⟨[]⟩ [] MasterState.default [107] [118] 5 0 0 3 0).2.1 (by norm_num),
   (c3_set_px_get_expiry ⟨[]⟩ [] MasterState.default [107] [118] 5 0 0 9 0).2.2 (by norm_num)⟩

/-- Claim C4.  Handling a `GetRequest` never mutates the `State`: whatever
the role, the store entry's presence, duration expiry or absolute-timestamp
expiry, the post-state equals the pre-state (an expired key is reported
`NotFound` without being removed). -/
theorem c4_get_request_preserves_state (s : State) (k : List Nat) (now wallNow : Nat) :
    (State.handleIncoming s (.getRequest k) now wallNow).2 = s := by
  rcases s with ⟨st, cfg, rs⟩
  cases rs with
  | slave ss => rfl
  | master ms =>
    simp only [State.handleIncoming]
    cases h : assocGet k st.data with
    | none => rfl
    | some value =>
      cases he : value.expiry with
      | none => simp only [he]
      | some ex => cases ex <;> simp only [he] <;> split <;> rfl

/-- Counterexample to claim C5 as stated: `:+5\r\n` deserializes cleanly to
`Integer 5` with empty remainder (Rust's `i64::from_str` accepts a leading
`+`), but re-serializing produces the canonical `:5\r\n`, not the original
bytes — and `Integer` is not covered by the claim's `Double` exception. -/
theorem c5_roundtrip_counterexample :
    deserializeF 2 (strBytes ":+5\r\n") = .ok (.integer 5) [] ∧
    serializeResp (.integer 5) = some (strBytes ":5\r\n") ∧
    strBytes ":5\r\n" ≠ strBytes ":+5\r\n" :=
  ⟨rfl, rfl, by decide⟩

/-- Claim C5 (amended).  For every `RespValue` that deserializes cleanly from
`b` with empty remainder, re-serializing reproduces `b` exactly, provided
every integer and length literal in `b` is written canonically (the text
`to_string` would produce) and `b` contains no `Double` — the side condition
`canonRespF fuel b = some []` states exactly this. -/
theorem c5_roundtrip_canonical (fuel : Nat) (b : List Nat) (v : RespValue)
    (hd : deserializeF fuel b = .ok v [])
    (hc : canonRespF fuel b = some []) :
    serializeResp v = some b := by
  obtain ⟨-, out, hs, hb⟩ := (roundtrip_aux fuel).1 b v [] [] hd hc
  rw [hs, hb]
  simp

/-- Witness for C5 (amended): the frame `*2\r\n$4\r\nKEYS\r\n:-7\r\n`
(an array of a bulk string and a canonical integer) re-serializes to itself. -/
theorem c5_roundtrip_canonical_witness :
    serializeResp (.array [.bulkString (strBytes "KEYS"), .integer (-7)]) =
      some (strBytes "*2\r\n$4\r\nKEYS\r\n:-7\r\n") :=
  c5_roundtrip_canonical 20 (strBytes "*2\r\n$4\r\nKEYS\r\n:-7\r\n")
    (.array [.bulkString (strBytes "KEYS"), .integer (-7)]) rfl rfl

/-- Claim C6.  The claim says a `$`-tagged frame whose payload plus two
lookahead bytes are not fully buffered yields an Incomplete outcome and the
lookahead is total.  The code instead evaluates the Rust slice
`&data[ti+2+len .. ti+2+len+2]` out of bounds and panics: on
`"$5\r\nhel"` (declared length 5, only 3 payload bytes buffered) it indexes
`data[9..11]` with only 7 bytes, for every recursion fuel. -/
theorem c6_dollar_incomplete_panics (fuel : Nat) :
    deserializeF (fuel + 1) [36, 53, 13, 10, 104, 101, 108] = .panic := rfl

/-- Claim C7.  A master whose state carries the startup `REPLICATION_ID`
and offset 0 answers `PSYNC ? -1` with `FULLRESYNC <40-hex-id> 0` (wire form
`+FULLRESYNC … 0\r\n`), sets the send-RDB flag; the next `next_outgoing`
yields the `DatabaseFile` exactly once (flag cleared, a second call yields
nothing), and the file serializes as `$88\r\n` + the 88 snapshot bytes with
no trailing CRLF. -/
theorem c7_psync_fullresync_rdb_once (store : Store) (cfg : Config) (b : Bool)
    (now wallNow : Nat) :
    State.handleIncoming ⟨store, cfg, .master ⟨replicationIdBytes, 0, b⟩⟩
        (.psync (strBytes "?") (-1)) now wallNow =
      (.ok (some (.fullResync replicationIdBytes 0)),
        ⟨store, cfg, .master ⟨replicationIdBytes, 0, true⟩⟩) ∧
    Message.serializeBytes (.fullResync replicationIdBytes 0) =
      some (strBytes "+FULLRESYNC 8371b4fb1155b71f4a04d3e1bc3e18c4a990aeeb 0\r\n") ∧
    State.nextOutgoing ⟨store, cfg, .master ⟨replicationIdBytes, 0, true⟩⟩ =
      .ok (some (.databaseFile emptyRdbFile),
        ⟨store, cfg, .master ⟨replicationIdBytes, 0, false⟩⟩) ∧
    State.nextOutgoing ⟨store, cfg, .master ⟨replicationIdBytes, 0, false⟩⟩ =
      .ok (none, ⟨store, cfg, .master ⟨replicationIdBytes, 0, false⟩⟩) ∧
    Message.serializeBytes (.databaseFile emptyRdbFile) =
      some (strBytes "$88\r\n" ++ emptyRdbFile) ∧
    emptyRdbFile.length = 88 ∧
    replicationIdBytes.length = 40 ∧
    replicationIdBytes.all isHexDigitByte = true := by
  exact ⟨rfl, rfl, rfl, rfl, rfl, rfl, rfl, rfl⟩

/-- Claim C8.  The claim says integer-encoded snapshot strings with low bits
1 / 2 are read as 2- / 4-byte *little*-endian integers.  The code uses
`u16::from_be_bytes` / `u32::from_be_bytes`: the first byte is the most
significant.  On `[0xC1, 0x01, 0x00]` the little-endian reading would be 1,
but the code produces the decimal text of `0x0100 = 256`. -/
theorem c8_rdb_integer_strings_big_endian (b0 b1 b2 b3 : Nat) (r1 r2 : List Nat) :
    parseString (193 :: b0 :: b1 :: r1) =
      .ok (natToDecimal ((b0 % 256) * 256 + (b1 % 256)), 3) ∧
    parseString (194 :: b0 :: b1 :: b2 :: b3 :: r2) =
      .ok (natToDecimal ((b0 % 256) * 16777216 + (b1 % 256) * 65536 +
        (b2 % 256) * 256 + (b3 % 256)), 5) ∧
    parseString [193, 1, 0] = .ok (strBytes "256", 3) :=
  ⟨rfl, rfl, rfl⟩

/-- Claim C9.  The claim says a master answers `Wait` immediately with
`WaitReply` and never errors.  The Master branch of `handle_incoming` has no
`Wait` arm, so the message falls through to the catch-all: the call returns
`Err` (state unchanged), and `handle_connection`'s `unwrap_or_else` panics
the connection. -/
theorem c9_wait_rejected_on_master (store : Store) (cfg : Config) (ms : MasterState)
    (n t now wallNow : Nat) :
    State.handleIncoming ⟨store, cfg, .master ms⟩ (.wait n t) now wallNow =
      (.error (), ⟨store, cfg, .master ms⟩) := rfl

/-- Claim C10.  `Message::deserialize` rejects a one-element `KEYS` array,
accepts a two-element one whatever the pattern (the second bulk string is
ignored), and the Master's `KeysRequest` arm answers with every key of the
store, state unchanged. -/
theorem c10_keys_arity_and_pattern_ignored (fuel : Nat) (b rest kb p : List Nat)
    (st : Store) (cfg : Config) (ms : MasterState) (now wallNow : Nat) :
    (deserializeF fuel b = .ok (.array [.bulkString kb]) rest →
      asciiUpper kb = strBytes "KEYS" →
      Message.deserializeBytes fuel b = .err) ∧
    (deserializeF fuel b = .ok (.array [.bulkString kb, .bulkString p]) rest →
      asciiUpper kb = strBytes "KEYS" →
      Message.deserializeBytes fuel b = .ok .keysRequest rest) ∧
    State.handleIncoming ⟨st, cfg, .master ms⟩ .keysRequest now wallNow =
      (.ok (some (.keysResponse (st.data.map Prod.fst))), ⟨st, cfg, .master ms⟩) := by
  refine ⟨?_, ?_, rfl⟩
  · intro h hup
    have hb : b ≠ [] := by
      intro hnil; subst hnil; exact deserializeF_nil fuel _ _ h
    simp [Message.deserializeBytes, hb, h, hup]
    decide
  · intro h hup
    have hb : b ≠ [] := by
      intro hnil; subst hnil; exact deserializeF_nil fuel _ _ h
    simp [Message.deserializeBytes, hb, h, hup]
    rw [if_neg (show ¬strBytes "KEYS" = strBytes "PING" by decide),
      if_neg (show ¬strBytes "KEYS" = strBytes "ECHO" by decide),
      if_neg (show ¬strBytes "KEYS" = strBytes "COMMAND" by decide),
      if_neg (show ¬strBytes "KEYS" = strBytes "SET" by decide),
      if_neg (show ¬strBytes "KEYS" = strBytes "GET" by decide),
      if_neg (show ¬strBytes "KEYS" = strBytes "CONFIG" by decide)]

/-- Witness for C10: the literal frames `*1\r\n$4\r\nKEYS\r\n` (rejected)
and `*2\r\n$4\r\nKEYS\r\n$1\r\nx\r\n` (accepted, pattern `x` ignored). -/
theorem c10_keys_arity_and_pattern_ignored_witness :
    Message.deserializeBytes 20 (strBytes "*1\r\n$4\r\nKEYS\r\n") = .err ∧
    Message.deserializeBytes 20 (strBytes "*2\r\n$4\r\nKEYS\r\n$1\r\nx\r\n") =
      .ok .keysRequest [] :=
  ⟨(c10_keys_arity_and_pattern_ignored 20 (strBytes "*1\r\n$4\r\nKEYS\r\n") []
      (strBytes "KEYS") [] ⟨[]⟩ [] MasterState.default 0 0).1 rfl rfl,
   (c10_keys_arity_and_pattern_ignored 20 (strBytes "*2\r\n$4\r\nKEYS\r\n$1\r\nx\r\n") []
      (strBytes "KEYS") [120] ⟨[]⟩ [] MasterState.default 0 0).2.1 rfl rfl⟩

end Redis
